import Mathlib

/-!
Shallow embedding of the rating-and-prediction engine of `src/bot.py`
(a sports prediction bot): the sqlite-backed Elo rating store, the Elo
update rule, the per-sport prediction functions, the today-filter and
slate assembly, together with theorems settling the specification
claims about them.

Machine floats of the source are modelled by exact reals `ℝ`; the
sqlite `elo` table (key TEXT PRIMARY KEY, rating REAL) is modelled by a
map `String → Option ℝ`.  External collaborators (the ISO-8601
timestamp parser `datetime.fromisoformat`, the weather fetcher
`open_meteo_temp_wind`, the line renderers that format floats) are
modelled as explicit function parameters (oracles), as is the pair of
local-midnight instants produced by `local_date_bounds`.
-/

namespace SportsBot

/-! ### Rating store (`db`, `elo_get`, `elo_set` — src/bot.py lines 76-101)

The `db()` schema also creates a `results(sport, item_key)` table with a
`UNIQUE(sport, item_key)` constraint — the settled-result record — but no
code path in the source ever reads from or writes to that table. -/

/-- The `elo` sqlite table: a finite partial map from competitor key to
rating, modelled as `String → Option ℝ`. -/
def EloTable : Type := String → Option ℝ

/-- `elo_get` (lines 90-96): return the stored rating for `key`; if the key
has never been seen, insert the base rating and return it.  Every call site
in the source uses the default `base=1500.0`, which is inlined here. -/
noncomputable def elo_get (t : EloTable) (key : String) : ℝ × EloTable :=
  match t key with
  | some r => (r, t)
  | none => (1500, fun k => if k = key then some 1500 else t k)

/-- `elo_set` (lines 98-101): `INSERT OR REPLACE` — unconditionally
overwrite the rating stored for `key`. -/
noncomputable def elo_set (t : EloTable) (key : String) (rating : ℝ) : EloTable :=
  fun k => if k = key then some rating else t k

/-- `elo_update` (lines 103-113): binary-outcome Elo update for two
competitors.  The source's default `k=20.0` is passed explicitly by the
theorems.  Note that the function consults no settled-result record: it
reads, recomputes and writes on every call. -/
noncomputable def elo_update (t : EloTable) (a_key b_key : String)
    (a_score b_score : ℝ) (k : ℝ) : EloTable :=
  let g1 := elo_get t a_key
  let Ra := g1.1
  let g2 := elo_get g1.2 b_key
  let Rb := g2.1
  let Ea := 1 / (1 + (10 : ℝ) ^ ((Rb - Ra) / 400))
  let Eb := 1 / (1 + (10 : ℝ) ^ ((Ra - Rb) / 400))
  let Sa : ℝ := if a_score > b_score then 1 else if a_score = b_score then 0.5 else 0
  let Sb : ℝ := 1 - Sa
  let Ra2 := Ra + k * (Sa - Ea)
  let Rb2 := Rb + k * (Sb - Eb)
  elo_set (elo_set g2.2 a_key Ra2) b_key Rb2

/-! ### Prediction transform (`mlb_predict`, `nfl_predict`, `ufc_predict`,
src/bot.py lines 251-297) -/

/-- The differential-to-probability transform shared by all three predict
functions: `ph = 1.0 / (1.0 + 10 ** (-diff/400))`. -/
noncomputable def winProb (diff : ℝ) : ℝ :=
  1 / (1 + (10 : ℝ) ^ (-diff / 400))

/-- `ufc_predict` (lines 291-297): probability for fighter `fa`, from the
raw ratings alone. -/
noncomputable def ufc_predict (t : EloTable) (fa fb : String) : ℝ :=
  let g1 := elo_get t ("UFC:" ++ fa)
  let g2 := elo_get g1.2 ("UFC:" ++ fb)
  winProb (g1.1 - g2.1)

/-- `mlb_predict` (lines 251-270).  `temp_c`/`wind_kmh` are `None`-able
weather readings (`Option ℝ`); the two guards are `temp_c is not None` and
`wind_kmh is not None and wind_kmh > 30`. -/
noncomputable def mlb_predict (t : EloTable) (home away : String) (pf : ℝ)
    (temp_c wind_kmh : Option ℝ) : ℝ :=
  let g1 := elo_get t ("MLB:" ++ home)
  let g2 := elo_get g1.2 ("MLB:" ++ away)
  let Rh := g1.1 + 30 + (pf - 100) * 0.2
    + (match temp_c with | some tc => (tc - 20) * 0.5 | none => 0)
    + (match wind_kmh with | some w => if w > 30 then 3 else 0 | none => 0)
  winProb (Rh - g2.1)

/-- The adjusted home rating computed inside `nfl_predict` (lines 276-286):
home-field `+55`, rest term, then — only when `outdoor` — the three
independent weather increments.  Python truthiness: the wind guard is
`wind_kmh and wind_kmh >= 32` (falsy `0.0` skips), the temperature guard is
`temp_c is not None and temp_c <= 5`, the precipitation guard is
`precip_prob and precip_prob >= 60`. -/
noncomputable def nfl_adjusted_home (Rh0 : ℝ) (outdoor : Bool)
    (temp_c wind_kmh precip_prob : Option ℝ) (rest_home rest_away : ℝ) : ℝ :=
  let Rh1 := Rh0 + 55
  let Rh2 := Rh1 + (rest_home - rest_away) * 1.5
  if outdoor then
    Rh2 + (match wind_kmh with | some w => if w ≠ 0 ∧ 32 ≤ w then 5 else 0 | none => 0)
        + (match temp_c with | some tc => if tc ≤ 5 then 3 else 0 | none => 0)
        + (match precip_prob with | some p => if p ≠ 0 ∧ 60 ≤ p then 2 else 0 | none => 0)
  else Rh2

/-- `nfl_predict` (lines 272-289). -/
noncomputable def nfl_predict (t : EloTable) (home away : String) (outdoor : Bool)
    (temp_c wind_kmh precip_prob : Option ℝ) (rest_home rest_away : ℝ) : ℝ :=
  let g1 := elo_get t ("NFL:" ++ home)
  let g2 := elo_get g1.2 ("NFL:" ++ away)
  winProb (nfl_adjusted_home g1.1 outdoor temp_c wind_kmh precip_prob rest_home rest_away - g2.1)

/-! ### Basic facts about the transform -/

theorem rpow_ten_pos (x : ℝ) : (0 : ℝ) < (10 : ℝ) ^ x :=
  Real.rpow_pos_of_pos (by norm_num) x

/-- The two expected scores `1/(1+10^x)` and `1/(1+10^(-x))` are exact
complements. -/
theorem one_div_one_add_rpow_add (x : ℝ) :
    1 / (1 + (10 : ℝ) ^ x) + 1 / (1 + (10 : ℝ) ^ (-x)) = 1 := by
  have hx := rpow_ten_pos x
  have hb : (10 : ℝ) ^ (-x) = ((10 : ℝ) ^ x)⁻¹ := Real.rpow_neg (by norm_num) x
  rw [hb]
  have h1 : (1 : ℝ) + (10 : ℝ) ^ x ≠ 0 := by positivity
  field_simp
  ring

theorem winProb_add_winProb_neg (d : ℝ) : winProb d + winProb (-d) = 1 := by
  have h := one_div_one_add_rpow_add (-d / 400)
  simpa [winProb, neg_div, neg_neg] using h

theorem winProb_zero : winProb 0 = 1 / 2 := by
  simp [winProb]
  norm_num

/-! ### Store lemmas -/

/-- Reading a key leaves every other key untouched. -/
theorem elo_get_apply_ne (t : EloTable) (key k' : String) (h : k' ≠ key) :
    (elo_get t key).2 k' = t k' := by
  unfold elo_get
  cases ht : t key with
  | some r => rfl
  | none => simp [h]

/-- A second read of the same key returns the value of the first read and
leaves the store unchanged. -/
theorem elo_get_get_self (t : EloTable) (key : String) :
    elo_get (elo_get t key).2 key = ((elo_get t key).1, (elo_get t key).2) := by
  unfold elo_get
  cases ht : t key with
  | some r => simp [ht]
  | none => simp

/-- The rating returned for a key depends only on the store's entry at
that key. -/
theorem elo_get_fst_congr (t t' : EloTable) (key : String) (h : t key = t' key) :
    (elo_get t key).1 = (elo_get t' key).1 := by
  unfold elo_get
  rw [h]
  cases t' key <;> rfl

/-- The empty rating store: a freshly created `elo` table. -/
noncomputable def emptyElo : EloTable := fun _ => none

/-! ### Claim C8 — default initialization of unknown keys -/

/-- C8: for a key never seen before, `elo_get` returns exactly 1500.0 and
inserts that base rating; a second `elo_get` with the same key returns the
same value without modifying the store.  An unknown key is never an
error (`elo_get` is total). -/
theorem elo_get_default_init (t : EloTable) (key : String) (h : t key = none) :
    (elo_get t key).1 = 1500
    ∧ (elo_get t key).2 key = some 1500
    ∧ (elo_get (elo_get t key).2 key).1 = (elo_get t key).1
    ∧ (elo_get (elo_get t key).2 key).2 = (elo_get t key).2 := by
  refine ⟨?_, ?_, ?_, ?_⟩
  · unfold elo_get; rw [h]
  · unfold elo_get; rw [h]; simp
  · rw [elo_get_get_self]
  · rw [elo_get_get_self]

/-- C8 witness: the fresh store and the key `"MLB:Unknown Team"`. -/
theorem elo_get_default_init_witness :
    emptyElo "MLB:Unknown Team" = none
    ∧ ((elo_get emptyElo "MLB:Unknown Team").1 = 1500
      ∧ (elo_get emptyElo "MLB:Unknown Team").2 "MLB:Unknown Team" = some 1500
      ∧ (elo_get (elo_get emptyElo "MLB:Unknown Team").2 "MLB:Unknown Team").1
          = (elo_get emptyElo "MLB:Unknown Team").1
      ∧ (elo_get (elo_get emptyElo "MLB:Unknown Team").2 "MLB:Unknown Team").2
          = (elo_get emptyElo "MLB:Unknown Team").2) :=
  ⟨rfl, elo_get_default_init emptyElo "MLB:Unknown Team" rfl⟩

/-! ### Claim C2 — zero-sum conservation of a single update -/

/-- C2: a single `elo_update` of two distinct competitors conserves the
sum of their ratings: the two stored ratings after the update add up to
exactly the two ratings that were read (`Ra + Rb`).  Exact equality holds
because the model uses exact reals; the complementarity `Ea + Eb = 1` is
exact by `one_div_one_add_rpow_add`. -/
theorem elo_update_zero_sum (t : EloTable) (a_key b_key : String)
    (a_score b_score k : ℝ) (h : a_key ≠ b_key) :
    ((elo_update t a_key b_key a_score b_score k) a_key).getD 0
      + ((elo_update t a_key b_key a_score b_score k) b_key).getD 0
    = (elo_get t a_key).1 + (elo_get (elo_get t a_key).2 b_key).1 := by
  have hE := one_div_one_add_rpow_add
    (((elo_get (elo_get t a_key).2 b_key).1 - (elo_get t a_key).1) / 400)
  have hneg : ((elo_get t a_key).1 - (elo_get (elo_get t a_key).2 b_key).1) / 400
      = -(((elo_get (elo_get t a_key).2 b_key).1 - (elo_get t a_key).1) / 400) := by
    ring
  simp only [elo_update, elo_set, if_pos, if_neg h]
  simp only [reduceIte, Option.getD_some]
  rw [hneg]
  linear_combination (-k) * hE

/-- C2 witness: fresh store, keys `"MLB:A"` and `"MLB:B"`, scores 5-2,
`k = 20`. -/
theorem elo_update_zero_sum_witness :
    (("MLB:A" : String) ≠ "MLB:B")
    ∧ ((elo_update emptyElo "MLB:A" "MLB:B" 5 2 20) "MLB:A").getD 0
        + ((elo_update emptyElo "MLB:A" "MLB:B" 5 2 20) "MLB:B").getD 0
      = (elo_get emptyElo "MLB:A").1 + (elo_get (elo_get emptyElo "MLB:A").2 "MLB:B").1 :=
  ⟨by decide, elo_update_zero_sum emptyElo "MLB:A" "MLB:B" 5 2 20 (by decide)⟩

/-! ### Claim C1 — idempotent settlement

The source has no settlement guard: `db()` creates the
`results(sport, item_key)` table with its `UNIQUE(sport, item_key)`
constraint, but no statement in the file ever reads from or inserts into
it, and `elo_update` takes no `(sport, item_key)` argument at all.  The
update is therefore re-applied in full on every call.  The next theorem
evaluates the code at the failing input: a fresh store, scores 5-2 and
`k = 20` — the first call yields ratings (1510, 1490) and the second
identical call strictly increases the winner's rating beyond 1510. -/

/-- The store after settling `"MLB:A"` beats `"MLB:B"` 5-2 once. -/
noncomputable def afterOnce : EloTable := elo_update emptyElo "MLB:A" "MLB:B" 5 2 20

/-- The store after applying the very same result a second time. -/
noncomputable def afterTwice : EloTable := elo_update afterOnce "MLB:A" "MLB:B" 5 2 20

theorem afterOnce_values :
    afterOnce "MLB:A" = some 1510 ∧ afterOnce "MLB:B" = some 1490 := by
  have hAB : ("MLB:A" : String) ≠ "MLB:B" := by decide
  have h0 : ((1500 : ℝ) - 1500) / 400 = 0 := by norm_num
  constructor
  · show elo_update emptyElo "MLB:A" "MLB:B" 5 2 20 "MLB:A" = some 1510
    simp only [elo_update, elo_get, elo_set, emptyElo, h0, Real.rpow_zero]
    norm_num [hAB, Ne.symm hAB]
  · show elo_update emptyElo "MLB:A" "MLB:B" 5 2 20 "MLB:B" = some 1490
    simp only [elo_update, elo_get, elo_set, emptyElo, h0, Real.rpow_zero]
    norm_num [hAB, Ne.symm hAB]

/-- C1 (code bug): the rating-update operation is not idempotent.  After
the first settlement the ratings are exactly (1510, 1490); re-applying the
same `(a_key, b_key, scores, k)` moves the winner's stored rating strictly
above 1510 instead of leaving it unchanged. -/
theorem elo_update_not_idempotent :
    afterOnce "MLB:A" = some 1510
    ∧ afterOnce "MLB:B" = some 1490
    ∧ 1510 < (afterTwice "MLB:A").getD 0 := by
  obtain ⟨hA, hB⟩ := afterOnce_values
  refine ⟨hA, hB, ?_⟩
  have hAB : ("MLB:A" : String) ≠ "MLB:B" := by decide
  have hgA : elo_get afterOnce "MLB:A" = (1510, afterOnce) := by
    unfold elo_get; rw [hA]
  have hgB : elo_get afterOnce "MLB:B" = (1490, afterOnce) := by
    unfold elo_get; rw [hB]
  have h2 : afterTwice "MLB:A"
      = some (1510 + 20 * (1 - 1 / (1 + (10 : ℝ) ^ (((1490 : ℝ) - 1510) / 400)))) := by
    show elo_update afterOnce "MLB:A" "MLB:B" 5 2 20 "MLB:A" = _
    simp only [elo_update, hgA, hgB, elo_set]
    norm_num [hAB, Ne.symm hAB]
  rw [h2]
  have hp := rpow_ten_pos (((1490 : ℝ) - 1510) / 400)
  have hlt : 1 / (1 + (10 : ℝ) ^ (((1490 : ℝ) - 1510) / 400)) < 1 := by
    rw [div_lt_one (by positivity)]
    linarith
  simp only [Option.getD_some]
  linarith

/-! ### Claim C3 — probability symmetry of the logistic transform -/

theorem string_append_left_cancel {s a b : String} (h : s ++ a = s ++ b) : a = b := by
  have hd := congrArg String.data h
  simp only [String.data_append] at hd
  exact String.ext (List.append_cancel_left hd)

/-- C3: the logistic transform satisfies `p(d) + p(-d) = 1` for every
finite differential and `p(0) = 0.5` exactly; consequently swapping the
two fighters in `ufc_predict` yields exactly complementary
probabilities. -/
theorem winProb_symmetry :
    (∀ d : ℝ, winProb d + winProb (-d) = 1)
    ∧ winProb 0 = 1 / 2
    ∧ ∀ (t : EloTable) (fa fb : String),
        ufc_predict t fa fb + ufc_predict t fb fa = 1 := by
  refine ⟨winProb_add_winProb_neg, winProb_zero, ?_⟩
  intro t fa fb
  by_cases hf : fa = fb
  · subst hf
    have hv : ufc_predict t fa fa = winProb 0 := by
      simp only [ufc_predict]
      rw [elo_get_get_self]
      simp
    rw [hv, winProb_zero]
    norm_num
  · have hkey : ("UFC:" ++ fa) ≠ ("UFC:" ++ fb) :=
      fun hc => hf (string_append_left_cancel hc)
    have h1 : ufc_predict t fa fb
        = winProb ((elo_get t ("UFC:" ++ fa)).1 - (elo_get t ("UFC:" ++ fb)).1) := by
      simp only [ufc_predict]
      rw [elo_get_fst_congr ((elo_get t ("UFC:" ++ fa)).2) t ("UFC:" ++ fb)
        (elo_get_apply_ne t ("UFC:" ++ fa) ("UFC:" ++ fb) (Ne.symm hkey))]
    have h2 : ufc_predict t fb fa
        = winProb ((elo_get t ("UFC:" ++ fb)).1 - (elo_get t ("UFC:" ++ fa)).1) := by
      simp only [ufc_predict]
      rw [elo_get_fst_congr ((elo_get t ("UFC:" ++ fb)).2) t ("UFC:" ++ fa)
        (elo_get_apply_ne t ("UFC:" ++ fb) ("UFC:" ++ fa) hkey)]
    rw [h1, h2]
    have hs := winProb_add_winProb_neg
      ((elo_get t ("UFC:" ++ fa)).1 - (elo_get t ("UFC:" ++ fb)).1)
    simpa [neg_sub] using hs

/-! ### Events and the today-filter (`filter_today`, src/bot.py lines 334-345)

An event is a JSON object from the schedule collaborator; the filter only
reads its `commence_time` field (`it.get("commence_time")` is `None` when
the field is missing).  `datetime.fromisoformat` — an external library
call that either yields an instant or raises `ValueError` — is modelled by
an explicit parameter `parse : String → Option Int` mapping an ISO string
(after the source's `.replace("Z","+00:00")`) to the UTC instant it
denotes, with `none` standing for the raised exception.  The two local
midnight instants produced by `local_date_bounds()` and converted to UTC
are passed in as `s` and `e`. -/

structure Event where
  home_team : Option String
  away_team : Option String
  commence_time : Option String
deriving DecidableEq, Repr

/-- The source's `iso.replace("Z","+00:00")`: replace every occurrence of
the substring `"Z"` (a single character) by `"+00:00"`.  Implemented
directly on the character list so that it evaluates inside proofs. -/
def replaceZ (s : String) : String :=
  String.mk (s.data.foldr
    (fun c acc => if c = 'Z' then '+' :: '0' :: '0' :: ':' :: '0' :: '0' :: acc
      else c :: acc) [])

/-- The loop of `filter_today` (lines 337-343): skip events with a falsy
(`None` or empty) `commence_time`, parse the rest — a parse failure aborts
the whole call, as the uncaught `ValueError` does — and keep events whose
instant satisfies `start_u <= dt < end_u`. -/
def collect_today (s e : Int) (parse : String → Option Int) :
    List Event → Except String (List Event)
  | [] => Except.ok []
  | it :: rest =>
    match it.commence_time with
    | none => collect_today s e parse rest
    | some iso =>
      if iso = "" then collect_today s e parse rest
      else
        match parse (replaceZ iso) with
        | none => Except.error iso
        | some dt =>
          if s ≤ dt ∧ dt < e then
            match collect_today s e parse rest with
            | Except.ok out => Except.ok (it :: out)
            | Except.error m => Except.error m
          else collect_today s e parse rest

/-- The sort key of line 344: `x.get("commence_time", "")` — the raw
timestamp string, with missing values defaulting to the empty string. -/
def commenceKey (x : Event) : String := x.commence_time.getD ""

/-! Python's stable ascending `list.sort(key=...)` is modelled by stable
insertion sort on the string key, under Python's string comparison:
lexicographic on Unicode code points. -/

/-- Python's `<=` on strings: lexicographic comparison of Unicode code
points. -/
def lexLe : List Char → List Char → Bool
  | [], _ => true
  | _ :: _, [] => false
  | c :: cs, d :: ds =>
    if c.toNat < d.toNat then true
    else if d.toNat < c.toNat then false
    else lexLe cs ds

def strLe (a b : String) : Bool := lexLe a.data b.data

theorem lexLe_refl : ∀ l : List Char, lexLe l l = true
  | [] => rfl
  | c :: cs => by
    unfold lexLe
    rw [if_neg (Nat.lt_irrefl _), if_neg (Nat.lt_irrefl _)]
    exact lexLe_refl cs

theorem lexLe_total : ∀ a b : List Char, lexLe a b = true ∨ lexLe b a = true
  | [], _ => Or.inl rfl
  | _ :: _, [] => Or.inr rfl
  | c :: cs, d :: ds => by
    rcases Nat.lt_trichotomy c.toNat d.toNat with h | h | h
    · left; unfold lexLe; rw [if_pos h]
    · have h1 : ¬ c.toNat < d.toNat := by omega
      have h2 : ¬ d.toNat < c.toNat := by omega
      rcases lexLe_total cs ds with ih | ih
      · left; unfold lexLe; rw [if_neg h1, if_neg h2]; exact ih
      · right; unfold lexLe; rw [if_neg h2, if_neg h1]; exact ih
    · right; unfold lexLe; rw [if_pos h]

theorem lexLe_trans : ∀ a b c : List Char,
    lexLe a b = true → lexLe b c = true → lexLe a c = true
  | [], _, _, _, _ => rfl
  | _ :: _, [], _, hab, _ => by simp [lexLe] at hab
  | _ :: _, _ :: _, [], _, hbc => by simp [lexLe] at hbc
  | x :: xs, y :: ys, z :: zs, hab, hbc => by
    unfold lexLe at hab hbc ⊢
    have hxy : x.toNat ≤ y.toNat := by
      by_contra hc
      push_neg at hc
      rw [if_neg (by omega), if_pos hc] at hab
      simp at hab
    have hyz : y.toNat ≤ z.toNat := by
      by_contra hc
      push_neg at hc
      rw [if_neg (by omega), if_pos hc] at hbc
      simp at hbc
    rcases Nat.lt_or_ge x.toNat z.toNat with hxz | hxz
    · rw [if_pos hxz]
    · have hxez : x.toNat = z.toNat := by omega
      have hxey : x.toNat = y.toNat := by omega
      rw [if_neg (by omega), if_neg (by omega)]
      rw [if_neg (by omega), if_neg (by omega)] at hab
      rw [if_neg (by omega), if_neg (by omega)] at hbc
      exact lexLe_trans xs ys zs hab hbc

def keyLE (a b : Event) : Prop := strLe (commenceKey a) (commenceKey b) = true

instance : DecidableRel keyLE := fun a b =>
  inferInstanceAs (Decidable (strLe (commenceKey a) (commenceKey b) = true))

instance : IsTotal Event keyLE :=
  ⟨fun a b => lexLe_total (commenceKey a).data (commenceKey b).data⟩

instance : IsTrans Event keyLE :=
  ⟨fun _ _ _ hab hbc => lexLe_trans _ _ _ hab hbc⟩

instance : IsRefl Event keyLE := ⟨fun a => lexLe_refl (commenceKey a).data⟩

/-- `filter_today` (lines 334-345): collect today's events, then sort them
in place by the raw `commence_time` string. -/
def filter_today (s e : Int) (parse : String → Option Int) (items : List Event) :
    Except String (List Event) :=
  (collect_today s e parse items).map (List.insertionSort keyLE)

/-- The property an event must satisfy to survive the filter loop: a
non-empty timestamp that parses to an instant inside the half-open
window `[s, e)`. -/
def KeptToday (s e : Int) (parse : String → Option Int) (x : Event) : Prop :=
  ∃ str, x.commence_time = some str ∧ str ≠ ""
    ∧ ∃ ts, parse (replaceZ str) = some ts ∧ s ≤ ts ∧ ts < e

theorem collect_today_ok_mem (s e : Int) (parse : String → Option Int) :
    ∀ (items l : List Event), collect_today s e parse items = Except.ok l →
      ∀ x, x ∈ l ↔ x ∈ items ∧ KeptToday s e parse x := by
  intro items
  induction items with
  | nil =>
    intro l hl x
    simp only [collect_today, Except.ok.injEq] at hl
    subst hl
    simp
  | cons it rest ih =>
    intro l hl x
    rcases hct : it.commence_time with _ | iso
    · rw [collect_today, hct] at hl
      rw [ih l hl x]
      constructor
      · rintro ⟨hx, hk⟩; exact ⟨List.mem_cons_of_mem it hx, hk⟩
      · rintro ⟨hx, hk⟩
        refine ⟨?_, hk⟩
        rcases List.mem_cons.mp hx with rfl | hx
        · obtain ⟨str, hstr, -⟩ := hk
          rw [hct] at hstr
          exact absurd hstr (by simp)
        · exact hx
    · rw [collect_today, hct] at hl
      dsimp only at hl
      by_cases hiso : iso = ""
      · rw [if_pos hiso] at hl
        rw [ih l hl x]
        constructor
        · rintro ⟨hx, hk⟩; exact ⟨List.mem_cons_of_mem it hx, hk⟩
        · rintro ⟨hx, hk⟩
          refine ⟨?_, hk⟩
          rcases List.mem_cons.mp hx with rfl | hx
          · obtain ⟨str, hstr, hne, -⟩ := hk
            rw [hct] at hstr
            obtain rfl : iso = str := by injection hstr
            exact absurd hiso hne
          · exact hx
      · rw [if_neg hiso] at hl
        rcases hp : parse (replaceZ iso) with _ | dt
        · rw [hp] at hl; exact absurd hl (by simp)
        · rw [hp] at hl
          dsimp only at hl
          by_cases hw : s ≤ dt ∧ dt < e
          · rw [if_pos hw] at hl
            rcases hcr : collect_today s e parse rest with m | out
            · rw [hcr] at hl; exact absurd hl (by simp)
            · rw [hcr] at hl
              obtain rfl : it :: out = l := by injection hl
              constructor
              · intro hx
                rcases List.mem_cons.mp hx with rfl | hx
                · exact ⟨List.mem_cons_self x rest,
                    iso, hct, hiso, dt, hp, hw.1, hw.2⟩
                · obtain ⟨hr, hk⟩ := (ih out hcr x).mp hx
                  exact ⟨List.mem_cons_of_mem it hr, hk⟩
              · rintro ⟨hx, hk⟩
                rcases List.mem_cons.mp hx with rfl | hx
                · exact List.mem_cons_self x out
                · exact List.mem_cons_of_mem it ((ih out hcr x).mpr ⟨hx, hk⟩)
          · rw [if_neg hw] at hl
            rw [ih l hl x]
            constructor
            · rintro ⟨hx, hk⟩; exact ⟨List.mem_cons_of_mem it hx, hk⟩
            · rintro ⟨hx, hk⟩
              refine ⟨?_, hk⟩
              rcases List.mem_cons.mp hx with rfl | hx
              · obtain ⟨str, hstr, hne, ts, hts, hin⟩ := hk
                rw [hct] at hstr
                obtain rfl : iso = str := by injection hstr
                rw [hp] at hts
                obtain rfl : dt = ts := by injection hts
                exact absurd hin hw
              · exact hx

/-! ### Claim C4 — the half-open "today" window -/

/-- C4: the filter keeps exactly the events whose parsed instant lies in
the half-open window `[s, e)` — so an event exactly at the start bound is
included and one exactly at the end bound is excluded. -/
theorem filter_today_window (s e : Int) (parse : String → Option Int)
    (items out : List Event) (hok : filter_today s e parse items = Except.ok out)
    (x : Event) :
    x ∈ out ↔ x ∈ items
      ∧ ∃ str, x.commence_time = some str ∧ str ≠ ""
        ∧ ∃ ts, parse (replaceZ str) = some ts ∧ s ≤ ts ∧ ts < e := by
  unfold filter_today at hok
  rcases hc : collect_today s e parse items with m | l
  · rw [hc] at hok; exact Except.noConfusion hok
  · rw [hc] at hok
    have hok2 : Except.ok (List.insertionSort keyLE l) = Except.ok out := hok
    obtain rfl := Except.ok.inj hok2
    rw [List.mem_insertionSort]
    have hm := collect_today_ok_mem s e parse items l hc x
    unfold KeptToday at hm
    exact hm

/-- A concrete stand-in for `datetime.fromisoformat(...).astimezone(utc)`,
defined on the handful of ISO strings the examples use.  Instants are
seconds since the local midnight `2025-06-15T00:00:00Z` of a UTC-configured
deployment; `"2025-06-15T12:00:00+09:00"` denotes 03:00 UTC = 10800. -/
def parseDemo : String → Option Int := fun s0 =>
  if s0 = "2025-06-15T00:00:00+00:00" then some 0
  else if s0 = "2025-06-15T12:00:00+09:00" then some 10800
  else if s0 = "2025-06-15T05:00:00+00:00" then some 18000
  else if s0 = "2025-06-16T00:00:00+00:00" then some 86400
  else none

/-- An event starting exactly at the local-midnight start bound. -/
def evStart : Event := ⟨some "Home A", some "Away A", some "2025-06-15T00:00:00Z"⟩

/-- An event starting exactly at the next local midnight (the end bound). -/
def evEnd : Event := ⟨some "Home B", some "Away B", some "2025-06-16T00:00:00Z"⟩

theorem filter_today_window_witness :
    filter_today 0 86400 parseDemo [evEnd, evStart] = Except.ok [evStart]
    ∧ evStart ∈ [evStart] ∧ evEnd ∉ [evStart] := by
  refine ⟨rfl, ?_, by decide⟩
  exact (filter_today_window 0 86400 parseDemo [evEnd, evStart] [evStart] rfl evStart).mpr
    ⟨by simp, "2025-06-15T00:00:00Z", rfl, by decide, 0, rfl, by decide, by decide⟩

/-! ### Claim C5 — sort order of the surviving events

Line 344 sorts by `x.get("commence_time", "")`: the raw ISO timestamp
STRING, not the instant it denotes.  For timestamps sharing one offset the
two orders agree, but offset-qualified timestamps break the claim: below,
the event starting 03:00 UTC (written `+09:00`) sorts after the event
starting 05:00 UTC (written `Z`). -/

/-- The instant an event's timestamp denotes, if it parses. -/
def eventInstant (parse : String → Option Int) (x : Event) : Option Int :=
  x.commence_time.bind fun str => parse (replaceZ str)

/-- A list of events is chronologically ordered when the sequence of
parsed instants is ascending. -/
def SortedByInstant (parse : String → Option Int) (l : List Event) : Prop :=
  List.Sorted (fun a b => a ≤ b) (l.filterMap (eventInstant parse))

/-- The 03:00-UTC event, written with a `+09:00` offset. -/
def evJp : Event := ⟨some "Team J", some "Team K", some "2025-06-15T12:00:00+09:00"⟩

/-- The 05:00-UTC event, written with a `Z` suffix. -/
def evUtc : Event := ⟨some "Team U", some "Team V", some "2025-06-15T05:00:00Z"⟩

/-- C5 counterexample: the filter's output is NOT sorted by start instant.
On the same day, the event starting 03:00 UTC comes out after the event
starting 05:00 UTC, because `"2025-06-15T05:00:00Z"` precedes
`"2025-06-15T12:00:00+09:00"` as a string. -/
theorem filter_today_not_sorted_by_instant :
    filter_today 0 86400 parseDemo [evJp, evUtc] = Except.ok [evUtc, evJp]
    ∧ eventInstant parseDemo evJp = some 10800
    ∧ eventInstant parseDemo evUtc = some 18000
    ∧ ¬ SortedByInstant parseDemo [evUtc, evJp] := by
  refine ⟨rfl, rfl, rfl, ?_⟩
  intro h
  unfold SortedByInstant at h
  rw [show [evUtc, evJp].filterMap (eventInstant parseDemo)
      = [(18000 : Int), 10800] from rfl] at h
  have := List.rel_of_sorted_cons h 10800 (by simp)
  omega

/-- Stability of the key-based insertion sort, in filter form: filtering
the sorted list by any property implied to tie the keys returns the
original filtered sublist in its original order. -/
theorem insertionSort_stable_filter (l : List Event) (p : Event → Bool)
    (hp : ∀ a ∈ l.filter p, ∀ b ∈ l.filter p, keyLE a b) :
    (List.insertionSort keyLE l).filter p = l.filter p := by
  have hpw : (l.filter p).Pairwise keyLE := List.pairwise_of_forall_mem_list hp
  have hsub : List.Sublist (l.filter p) (List.insertionSort keyLE l) :=
    List.sublist_insertionSort hpw (List.filter_sublist l)
  have heq : (l.filter p).filter p = l.filter p :=
    List.filter_eq_self.mpr fun a ha => List.of_mem_filter ha
  have hsub2 : List.Sublist (l.filter p) ((List.insertionSort keyLE l).filter p) := by
    have hs := hsub.filter p
    rwa [heq] at hs
  have hlen : ((List.insertionSort keyLE l).filter p).length = (l.filter p).length :=
    ((List.perm_insertionSort keyLE l).filter p).length_eq
  exact (hsub2.eq_of_length hlen.symm).symm

/-- C5 amended: the surviving events come out sorted ascending by the raw
`commence_time` string (missing timestamps keyed as `""`), as a stable
permutation of the kept events — ties, i.e. equal key strings, stay in
original input order.  Sorting by the denoted instant fails
(`filter_today_not_sorted_by_instant`). -/
theorem filter_today_sorted_by_string (s e : Int) (parse : String → Option Int)
    (items l : List Event) (hc : collect_today s e parse items = Except.ok l) :
    ∃ out, filter_today s e parse items = Except.ok out
      ∧ out.Perm l
      ∧ List.Sorted keyLE out
      ∧ ∀ key : String, out.filter (fun x => commenceKey x == key)
          = l.filter (fun x => commenceKey x == key) := by
  refine ⟨List.insertionSort keyLE l, ?_, List.perm_insertionSort keyLE l,
    List.sorted_insertionSort keyLE l, ?_⟩
  · unfold filter_today
    rw [hc]
    rfl
  · intro key
    apply insertionSort_stable_filter
    intro a ha b hb
    have h1 : commenceKey a = key := by simpa using List.of_mem_filter ha
    have h2 : commenceKey b = key := by simpa using List.of_mem_filter hb
    show strLe (commenceKey a) (commenceKey b) = true
    rw [h1, h2]
    exact lexLe_refl key.data

theorem filter_today_sorted_by_string_witness :
    ∃ out, filter_today 0 86400 parseDemo [evJp, evUtc] = Except.ok out
      ∧ out.Perm [evJp, evUtc]
      ∧ List.Sorted keyLE out
      ∧ ∀ key : String, out.filter (fun x => commenceKey x == key)
          = [evJp, evUtc].filter (fun x => commenceKey x == key) :=
  filter_today_sorted_by_string 0 86400 parseDemo [evJp, evUtc] [evJp, evUtc] rfl

/-! ### Claim C6 — missing vs unparseable timestamps

`filter_today` skips falsy (`None`/empty) timestamps via
`if not iso: continue`, but there is no try/except around
`datetime.fromisoformat`: a malformed non-empty timestamp raises
`ValueError` out of the filter instead of being excluded. -/

/-- An event whose timestamp `datetime.fromisoformat` rejects. -/
def evBad : Event := ⟨some "Home X", some "Away X", some "not-a-date"⟩

/-- C6 counterexample: an unparseable timestamp is not defensively
excluded — the parse failure propagates (modelled as `Except.error`), and
the filter does not return the normal empty slate the claim predicts. -/
theorem filter_today_error_on_unparseable :
    filter_today 0 86400 parseDemo [evBad] = Except.error "not-a-date"
    ∧ filter_today 0 86400 parseDemo [evBad] ≠ Except.ok [] := by
  refine ⟨rfl, ?_⟩
  intro h
  rw [show filter_today 0 86400 parseDemo [evBad]
      = Except.error "not-a-date" from rfl] at h
  exact Except.noConfusion h

/-- C6 amended: an event with a missing or empty `commence_time` is
silently skipped and the filter proceeds normally, but an event whose
non-empty timestamp fails to parse makes the whole filter call fail with
the parse error. -/
theorem filter_today_missing_vs_unparseable (s e : Int) (parse : String → Option Int)
    (it : Event) (items : List Event) :
    (it.commence_time = none ∨ it.commence_time = some "" →
        filter_today s e parse (it :: items) = filter_today s e parse items)
    ∧ ∀ str, it.commence_time = some str → str ≠ "" →
        parse (replaceZ str) = none →
        filter_today s e parse (it :: items) = Except.error str := by
  constructor
  · intro h
    unfold filter_today
    congr 1
    rcases h with h | h
    · rw [collect_today, h]
    · rw [collect_today, h]
      rfl
  · intro str hstr hne hp
    unfold filter_today
    rw [collect_today, hstr]
    dsimp only
    rw [if_neg hne, hp]
    rfl

theorem filter_today_missing_vs_unparseable_witness :
    filter_today 0 86400 parseDemo [⟨none, none, none⟩]
        = filter_today 0 86400 parseDemo []
    ∧ filter_today 0 86400 parseDemo [evBad] = Except.error "not-a-date" :=
  ⟨(filter_today_missing_vs_unparseable 0 86400 parseDemo ⟨none, none, none⟩ []).1
      (Or.inl rfl),
    (filter_today_missing_vs_unparseable 0 86400 parseDemo evBad []).2
      "not-a-date" rfl (by decide) rfl⟩

/-! ### Claim C7 — weather is gated on the outdoor flag and additive -/

/-- C7: for an indoor venue the weather readings contribute nothing — the
prediction equals the all-weather-absent prediction for every reported
temperature, wind and precipitation; for an outdoor venue the three
weather bonuses are independently additive: the joint weather delta is
the sum of the three single-condition deltas. -/
theorem nfl_weather_gating :
    (∀ (t : EloTable) (home away : String) (temp wind precip : Option ℝ)
        (rest_home rest_away : ℝ),
      nfl_predict t home away false temp wind precip rest_home rest_away
        = nfl_predict t home away false none none none rest_home rest_away)
    ∧ ∀ (Rh0 : ℝ) (temp wind precip : Option ℝ) (rest_home rest_away : ℝ),
      nfl_adjusted_home Rh0 true temp wind precip rest_home rest_away
          - nfl_adjusted_home Rh0 true none none none rest_home rest_away
        = (nfl_adjusted_home Rh0 true temp none none rest_home rest_away
            - nfl_adjusted_home Rh0 true none none none rest_home rest_away)
          + (nfl_adjusted_home Rh0 true none wind none rest_home rest_away
            - nfl_adjusted_home Rh0 true none none none rest_home rest_away)
          + (nfl_adjusted_home Rh0 true none none precip rest_home rest_away
            - nfl_adjusted_home Rh0 true none none none rest_home rest_away) := by
  constructor
  · intro t home away temp wind precip rest_home rest_away
    simp only [nfl_predict, nfl_adjusted_home, Bool.false_eq_true, if_false]
  · intro Rh0 temp wind precip rest_home rest_away
    simp only [nfl_adjusted_home, if_true]
    cases temp <;> cases wind <;> cases precip <;> ring

/-! ### NFL feature extraction (`nfl_features`, src/bot.py lines 209-236) -/

/-- The `TEAM_STADIUM` aliasing table of lines 214-227. -/
def TEAM_STADIUM : List (String × String) :=
  [("Green Bay Packers", "Lambeau Field"),
   ("New York Jets", "MetLife Stadium"),
   ("New York Giants", "MetLife Stadium"),
   ("Buffalo Bills", "Highmark Stadium"),
   ("Philadelphia Eagles", "Lincoln Financial Field"),
   ("New England Patriots", "Gillette Stadium"),
   ("Kansas City Chiefs", "Arrowhead Stadium"),
   ("Pittsburgh Steelers", "Acrisure Stadium"),
   ("San Francisco 49ers", "Levi's Stadium"),
   ("Los Angeles Rams", "SoFi Stadium"),
   ("Los Angeles Chargers", "SoFi Stadium"),
   ("Minnesota Vikings", "U.S. Bank Stadium")]

/-- The `NFL_OUTDOOR_STADIA` flag table of lines 38-47. -/
def NFL_OUTDOOR_STADIA : List (String × Bool) :=
  [("Lambeau Field", true), ("Soldier Field", true), ("Arrowhead Stadium", true),
   ("MetLife Stadium", true), ("Highmark Stadium", true),
   ("Lincoln Financial Field", true), ("Gillette Stadium", true),
   ("Cleveland Browns Stadium", true), ("M&T Bank Stadium", true),
   ("Acrisure Stadium", true), ("TIAA Bank Field", true), ("Lumen Field", true),
   ("Empower Field at Mile High", true), ("Levi's Stadium", true),
   ("Raymond James Stadium", true), ("Bank of America Stadium", true),
   ("SoFi Stadium", false), ("U.S. Bank Stadium", false),
   ("Mercedes-Benz Stadium", false), ("Caesars Superdome", false),
   ("Ford Field", false), ("Allegiant Stadium", false), ("NRG Stadium", false),
   ("AT&T Stadium", false), ("State Farm Stadium", false),
   ("Lucas Oil Stadium", false), ("Nissan Stadium", true)]

/-- The `STADIUM_COORDS` table of lines 50-71 (latitude, longitude). -/
noncomputable def STADIUM_COORDS : List (String × (ℝ × ℝ)) :=
  [("Coors Field", (39.7559, -104.9942)),
   ("Fenway Park", (42.3467, -71.0972)),
   ("Yankee Stadium", (40.8296, -73.9262)),
   ("Globe Life Field", (32.7473, -97.0846)),
   ("Dodger Stadium", (34.0739, -118.2390)),
   ("Wrigley Field", (41.9484, -87.6553)),
   ("Oracle Park", (37.7786, -122.3893)),
   ("T-Mobile Park", (47.5914, -122.3325)),
   ("Lambeau Field", (44.5013, -88.0622)),
   ("MetLife Stadium", (40.8128, -74.0742)),
   ("Highmark Stadium", (42.7738, -78.7867)),
   ("Lincoln Financial Field", (39.9008, -75.1675)),
   ("Gillette Stadium", (42.0909, -71.2643)),
   ("Arrowhead Stadium", (39.0490, -94.4839)),
   ("Acrisure Stadium", (40.4468, -80.0158)),
   ("Levi's Stadium", (37.4030, -121.9690)),
   ("SoFi Stadium", (33.9535, -118.3387)),
   ("U.S. Bank Stadium", (44.9735, -93.2575))]

/-- The weather collaborator `open_meteo_temp_wind(lat, lon, when)`: an
oracle returning `(temp_c, wind_kmh, precipitation_prob)`, any of which
may be absent (it returns all-`None` on transport failure). -/
def WeatherFn : Type := ℝ × ℝ → Int → Option ℝ × Option ℝ × Option ℝ

/-- The 10-tuple returned by `nfl_features` (line 236). -/
structure NflFeatures where
  home : Option String
  away : Option String
  dt : Int
  stadium : Option String
  outdoor : Bool
  temp_c : Option ℝ
  wind_kmh : Option ℝ
  precip : Option ℝ
  rest_home : ℝ
  rest_away : ℝ

/-- `nfl_features` (lines 209-236): resolve the home stadium, its outdoor
flag (`dict.get` default `False`), fetch weather only for a known outdoor
stadium with known coordinates, and return the constant rest-day
approximation `rest_home = 7; rest_away = 7`.  A missing `commence_time`
raises (`None.replace`), as does an unparseable one
(`datetime.fromisoformat`); both are modelled as `Except.error`. -/
noncomputable def nfl_features (weather : WeatherFn) (parse : String → Option Int)
    (game : Event) : Except String NflFeatures :=
  match game.commence_time with
  | none => Except.error "commence_time"
  | some iso =>
    match parse (replaceZ iso) with
    | none => Except.error iso
    | some dt =>
      let stadium := game.home_team.bind fun h => TEAM_STADIUM.lookup h
      let outdoor := (stadium.bind fun s0 => NFL_OUTDOOR_STADIA.lookup s0).getD false
      let coords := stadium.bind fun s0 => STADIUM_COORDS.lookup s0
      let twp : Option ℝ × Option ℝ × Option ℝ :=
        match stadium, outdoor, coords with
        | some _, true, some c => weather c dt
        | _, _, _ => (none, none, none)
      Except.ok ⟨game.home_team, game.away_team, dt, stadium, outdoor,
        twp.1, twp.2.1, twp.2.2, 7, 7⟩

/-! ### Claim C10 — rest-day counts are constant, so the rest term vanishes -/

theorem nfl_adjusted_home_rest_equal (Rh0 : ℝ) (outdoor : Bool)
    (temp wind precip : Option ℝ) (r : ℝ) :
    nfl_adjusted_home Rh0 outdoor temp wind precip 7 7
      = nfl_adjusted_home Rh0 outdoor temp wind precip r r := by
  cases outdoor <;> simp only [nfl_adjusted_home, if_true, Bool.false_eq_true, if_false] <;>
    ring_nf

/-- C10: `nfl_features` always reports `rest_home = rest_away = 7`, and
with equal rest counts the rest term `(rest_home - rest_away) * 1.5`
contributes exactly 0 to the prediction: the probability equals the one
computed with any other equal rest counts. -/
theorem nfl_rest_always_seven :
    (∀ (weather : WeatherFn) (parse : String → Option Int) (game : Event),
      (nfl_features weather parse game).map (fun f => (f.rest_home, f.rest_away))
        = (nfl_features weather parse game).map (fun _ => ((7 : ℝ), (7 : ℝ))))
    ∧ ∀ (t : EloTable) (home away : String) (outdoor : Bool)
        (temp wind precip : Option ℝ) (r : ℝ),
      nfl_predict t home away outdoor temp wind precip 7 7
        = nfl_predict t home away outdoor temp wind precip r r := by
  constructor
  · intro weather parse game
    rcases hct : game.commence_time with _ | iso
    · simp [nfl_features, hct, Except.map]
    · rcases hp : parse (replaceZ iso) with _ | dt
      · simp [nfl_features, hct, hp, Except.map]
      · simp [nfl_features, hct, hp, Except.map]
  · intro t home away outdoor temp wind precip r
    simp only [nfl_predict]
    rw [nfl_adjusted_home_rest_equal ((elo_get t ("NFL:" ++ home)).1)
      outdoor temp wind precip r]

/-! ### Slate rendering and the `/today` command
(`block_mlb`/`block_nfl`/`block_ufc`, lines 302-331, and `cmd_today`,
lines 365-396)

Rendering one pick line involves the feature fetch, the predict call and
float formatting (`format_pct`); the per-event line is abstracted as a
renderer `Event → String`, since the claims below only concern the block
structure — header plus lines versus the "no events" placeholder — and
which blocks the command emits. -/

/-- `block_mlb` (lines 302-310): header plus one line per event, or the
placeholder `"No MLB games today."` when the list is empty. -/
def block_mlb (render : Event → String) (today_list : List Event) : String :=
  let lines := today_list.map render
  if lines ≠ [] then "*MLB Today*\n" ++ String.intercalate "\n" lines
  else "No MLB games today."

/-- `block_nfl` (lines 312-321). -/
def block_nfl (render : Event → String) (today_list : List Event) : String :=
  let lines := today_list.map render
  if lines ≠ [] then "*NFL Today*\n" ++ String.intercalate "\n" lines
  else "No NFL games today."

/-- `block_ufc` (lines 323-331). -/
def block_ufc (render : Event → String) (today_list : List Event) : String :=
  let lines := today_list.map render
  if lines ≠ [] then "*UFC Today*\n" ++ String.intercalate "\n" lines
  else "No UFC fights today."

/-- `cmd_today` (lines 365-396), as the list of messages it replies with.
`hasOddsKey` models `ODDS_API_KEY` being set, `args` the lowercased
command arguments, `when` the formatted current date, and the three event
lists are the already-filtered results of `get_today_by_league`.  In the
`"all"` branch each block is appended only `if mlb:` (non-empty) — empty
sports are skipped; in the single-sport branch the block is appended
unconditionally. -/
def cmd_today (hasOddsKey : Bool) (args : List String) (when : String)
    (mlb nfl ufc : List Event)
    (render_mlb render_nfl render_ufc : Event → String) : List String :=
  if ¬ hasOddsKey then ["Set ODDS_API_KEY env var to fetch schedules."]
  else
    match args with
    | [] => ["Usage: /today all|mlb|nfl|ufc"]
    | arg0 :: _ =>
      if arg0 = "all" then
        let blocks :=
          (if mlb ≠ [] then [block_mlb render_mlb mlb] else [])
          ++ (if nfl ≠ [] then [block_nfl render_nfl nfl] else [])
          ++ (if ufc ≠ [] then [block_ufc render_ufc ufc] else [])
        if blocks = [] then ["No events today (" ++ when ++ ")."] else blocks
      else if arg0 = "mlb" ∨ arg0 = "nfl" ∨ arg0 = "ufc" then
        let blocks :=
          if arg0 = "mlb" then [block_mlb render_mlb mlb]
          else if arg0 = "nfl" then [block_nfl render_nfl nfl]
          else [block_ufc render_ufc ufc]
        if blocks = [] then ["No events today (" ++ when ++ ")."] else blocks
      else ["Use: all|mlb|nfl|ufc"]

/-! ### Claim C9 — the "no events" placeholder -/

/-- A renderer standing in for the pick-line formatting. -/
def lineDemo : Event → String := fun _ => "line"

/-- C9 counterexample: in the `/today all` path with MLB empty but NFL
non-empty, the MLB block is omitted entirely — no message carries the
`"No MLB games today."` placeholder, contradicting the claim that an
empty sport always renders its placeholder. -/
theorem cmd_today_all_omits_empty_block :
    cmd_today true ["all"] "Jun 15" [] [evUtc] [] lineDemo lineDemo lineDemo
        = ["*NFL Today*\nline"]
    ∧ "No MLB games today."
        ∉ cmd_today true ["all"] "Jun 15" [] [evUtc] [] lineDemo lineDemo lineDemo := by
  constructor
  · rfl
  · intro h
    rw [show cmd_today true ["all"] "Jun 15" [] [evUtc] [] lineDemo lineDemo lineDemo
        = ["*NFL Today*\nline"] from rfl] at h
    simp at h

/-- C9 amended: each block renderer returns its sport's placeholder on an
empty list, and the single-sport command path emits that placeholder; but
the `/today all` path omits empty sports' blocks, sending the generic
`"No events today (...)."` message only when all three lists are empty. -/
theorem blocks_placeholder_behavior :
    (∀ render : Event → String, block_mlb render [] = "No MLB games today.")
    ∧ (∀ render : Event → String, block_nfl render [] = "No NFL games today.")
    ∧ (∀ render : Event → String, block_ufc render [] = "No UFC fights today.")
    ∧ (∀ (when : String) (nfl ufc : List Event)
        (rm rn ru : Event → String),
      cmd_today true ["mlb"] when [] nfl ufc rm rn ru = ["No MLB games today."])
    ∧ ∀ (when : String) (rm rn ru : Event → String),
      cmd_today true ["all"] when [] [] [] rm rn ru
        = ["No events today (" ++ when ++ ")."] := by
  refine ⟨fun render => rfl, fun render => rfl, fun render => rfl, ?_, ?_⟩
  · intro when nfl ufc rm rn ru
    rfl
  · intro when rm rn ru
    rfl

end SportsBot
